import Mathlib

/-!
Shallow embedding of the identity-resolution and resilient batch-load pipeline
of the mongodb-etl-migration repository, together with proofs of the spec's
claims about it.

The Python source is translated definition by definition:

* `IDMapper` models `etl/utils/id_mapper.py` (relational-store identity
  registry).  The PostgreSQL database is modelled by an abstract lookup
  function `PgDb`; a query can error, miss, or find a row.
* `CassandraIDMapper` models `etl/utils/cassandra_id_mapper.py` (cross-store
  identity registry).  `uuid.uuid5`, `uuid.uuid4` and `uuid_from_time` are
  modelled by the free constructors of `UUID`; randomness and the clock are
  passed explicitly as arguments, mirroring the ambient state the Python
  code draws on at each call.
* The Cassandra loader `load_batch` of `etl/loaders/cassandra_loader.py` is
  modelled as a fold over the input rows; the Cassandra session is an oracle
  `Oracle : Nat → SubmitRes` giving the outcome of the n-th
  `session.execute` call, and each row carries the outcome of its
  `batch.add` call.
* The orchestrator pieces (`_get_entities_to_migrate`, the parallel/sequential
  dispatch of `run`, and `_process_docs_hierarchical`) are modelled from
  `etl/orchestrator.py` and `etl/config/settings.py`.
-/

set_option maxRecDepth 4000

namespace MongoETL

/-- Association-list lookup keyed by strings, used to model Python dict
lookups (`key in cache` followed by `cache[key]`).  New insertions are
prepended, so the head entry wins, matching dict overwrite semantics. -/
def lookupKey {α : Type} (c : List (String × α)) (k : String) : Option α :=
  match c with
  | [] => none
  | (k₁, v) :: rest => if k₁ = k then some v else lookupKey rest k

/-- Result of a single-row SQL lookup: connection error, no matching row,
or a row containing the integer id. -/
inductive LookupRes where
  | err : LookupRes
  | notFound : LookupRes
  | found : Int → LookupRes
  deriving DecidableEq

/-- The PostgreSQL database, as seen through single-row id lookups:
`db table mongoId` is the outcome of
`SELECT id FROM "table" WHERE mongo_id = :mongo_id LIMIT 1`. -/
def PgDb : Type := String → String → LookupRes

/-- The `role`-table lookup by display name:
`SELECT id FROM role WHERE name = :role_name LIMIT 1`. -/
def RoleDb : Type := String → LookupRes

/-! ## IDMapper (etl/utils/id_mapper.py) -/

/-- The relational-store identity registry: a single string-keyed cache,
keys being `table_name ++ ":" ++ mongo_id` (and `"role_name:" ++ name`
for the secondary role-name index), exactly as the Python code builds
its `_cache` dict keys. -/
structure IDMapper where
  cache : List (String × Int)
  deriving DecidableEq

/-- Cache key built by `IDMapper`: `f"{table_name}:{mongo_id}"`. -/
def cacheKey (table k : String) : String := table ++ ":" ++ k

/-- Outcome of a registry resolve: the value returned, the registry state
afterwards, and how many database round trips were made. -/
structure ResolveOut where
  result : Option Int
  mapper : IDMapper
  dbCalls : Nat
  deriving DecidableEq

/-- `IDMapper.get_postgres_id`: falsy key returns `None`; a cache hit is
returned directly; on a miss the database is queried once, a found row is
cached and returned, and both "no row" and a query error yield `None`
without touching the cache. -/
def IDMapper.get_postgres_id (db : PgDb) (m : IDMapper) (table k : String) :
    ResolveOut :=
  if k = "" then ⟨none, m, 0⟩
  else
    match lookupKey m.cache (cacheKey table k) with
    | some v => ⟨some v, m, 0⟩
    | none =>
      match db table k with
      | LookupRes.found v => ⟨some v, ⟨(cacheKey table k, v) :: m.cache⟩, 1⟩
      | LookupRes.notFound => ⟨none, m, 1⟩
      | LookupRes.err => ⟨none, m, 1⟩

/-- `IDMapper.add_to_cache`: caches the mapping only when both the key and
the surrogate are truthy (non-empty string, non-zero integer). -/
def IDMapper.add_to_cache (m : IDMapper) (table k : String) (pgId : Int) :
    IDMapper :=
  if k ≠ "" ∧ pgId ≠ 0 then ⟨(cacheKey table k, pgId) :: m.cache⟩ else m

/-- Removal of every `"_ROLE"` occurrence from a character list, scanning
left to right: the model of Python `str.replace('_ROLE', '')`. -/
def stripRoleList : List Char → List Char
  | '_' :: 'R' :: 'O' :: 'L' :: 'E' :: rest => stripRoleList rest
  | c :: rest => c :: stripRoleList rest
  | [] => []

/-- String form of `stripRoleList`. -/
def stripRole (s : String) : String := ⟨stripRoleList s.data⟩

/-- Model of Python `str.endswith('_ROLE')`. -/
def endsWithRole (s : String) : Bool :=
  decide (s.data.reverse.take 5 = ['E', 'L', 'O', 'R', '_'])

/-- `IDMapper.get_role_id_by_name`: strips `_ROLE` from the name, checks the
cache under `"role_name:" ++ clean`, otherwise queries the `role` table by
the cleaned name, caching a found row.  Note it never tries the suffixed
form and all matching is case-sensitive. -/
def IDMapper.get_role_id_by_name (roleDb : RoleDb) (m : IDMapper)
    (roleName : String) : ResolveOut :=
  if roleName = "" then ⟨none, m, 0⟩
  else
    let clean := stripRole roleName
    match lookupKey m.cache ("role_name:" ++ clean) with
    | some v => ⟨some v, m, 0⟩
    | none =>
      match roleDb clean with
      | LookupRes.found v => ⟨some v, ⟨("role_name:" ++ clean, v) :: m.cache⟩, 1⟩
      | LookupRes.notFound => ⟨none, m, 1⟩
      | LookupRes.err => ⟨none, m, 1⟩

/-! ## CassandraIDMapper (etl/utils/cassandra_id_mapper.py) -/

/-- Model of the Python `uuid` values produced by the cross-store registry:
`uuid5 ns name` stands for `uuid.uuid5(ns, name)` (a pure function of
namespace and name), `uuid4 e` for `uuid.uuid4()` drawing entropy `e`,
and `fromTime t` for `cassandra.util.uuid_from_time(t)`. -/
inductive UUID where
  | uuid5 : String → String → UUID
  | uuid4 : Nat → UUID
  | fromTime : Int → UUID
  deriving DecidableEq

/-- The fixed namespace `uuid.NAMESPACE_OID` used by `get_room_id`. -/
def NAMESPACE_OID : String := "1.3.6.1.4"

/-- The cross-store identity registry state: per-kind caches, the optional
relational-store handle used for user-id synchronization, and the two
sequential-id counters. -/
structure CassandraIDMapper where
  postgresConnection : Option PgDb
  roomCache : List (String × UUID)
  userCache : List (String × Int)
  messageCache : List (String × UUID)
  roleCache : List (String × Int)
  roleNameCache : List (String × Int)
  nextUserId : Int
  nextRoleId : Int

/-- A freshly constructed registry (no Cassandra connection, so no id or
role-name preloading happens), with an optional relational-store handle. -/
def CassandraIDMapper.fresh (pg : Option PgDb) : CassandraIDMapper :=
  { postgresConnection := pg, roomCache := [], userCache := [],
    messageCache := [], roleCache := [], roleNameCache := [],
    nextUserId := 1, nextRoleId := 1 }

/-- `CassandraIDMapper.get_room_id`: a falsy key yields a fresh random
UUID4 without caching; otherwise the cached value is returned if present,
else `uuid5(NAMESPACE_OID, key)` is computed, cached and returned.  The
function never consults any store (its Python body never touches
`self.connection`), which the model reflects by taking no database
argument. -/
def CassandraIDMapper.get_room_id (m : CassandraIDMapper) (entropy : Nat)
    (k : String) : UUID × CassandraIDMapper :=
  if k = "" then (UUID.uuid4 entropy, m)
  else
    match lookupKey m.roomCache k with
    | some u => (u, m)
    | none =>
      let u := UUID.uuid5 NAMESPACE_OID k
      (u, { m with roomCache := (k, u) :: m.roomCache })

/-- `CassandraIDMapper._generate_user_id`: return the counter and bump it. -/
def CassandraIDMapper.generateUserId (m : CassandraIDMapper) :
    Int × CassandraIDMapper :=
  (m.nextUserId, { m with nextUserId := m.nextUserId + 1 })

/-- `CassandraIDMapper.get_user_id`: falsy key allocates a fresh sequential
id (uncached); a cache hit is returned; otherwise, when a relational-store
handle is configured, the `user` table is queried by `mongo_id` and a found
id is adopted verbatim and cached; a miss or query error falls back to
allocating the next sequential id, which is cached. -/
def CassandraIDMapper.get_user_id (m : CassandraIDMapper) (k : String) :
    Int × CassandraIDMapper :=
  if k = "" then m.generateUserId
  else
    match lookupKey m.userCache k with
    | some v => (v, m)
    | none =>
      match m.postgresConnection with
      | some db =>
        match db "user" k with
        | LookupRes.found v => (v, { m with userCache := (k, v) :: m.userCache })
        | _ =>
          let g := m.generateUserId
          (g.1, { g.2 with userCache := (k, g.1) :: g.2.userCache })
      | none =>
        let g := m.generateUserId
        (g.1, { g.2 with userCache := (k, g.1) :: g.2.userCache })

/-- `CassandraIDMapper.get_message_id`: falsy key returns a time-UUID of
`created_at or now` without caching; otherwise the cached value is
returned if present, else the time-UUID is computed, cached and
returned. -/
def CassandraIDMapper.get_message_id (m : CassandraIDMapper) (now : Int)
    (k : String) (createdAt : Option Int) : UUID × CassandraIDMapper :=
  if k = "" then (UUID.fromTime (createdAt.getD now), m)
  else
    match lookupKey m.messageCache k with
    | some u => (u, m)
    | none =>
      let u := UUID.fromTime (createdAt.getD now)
      (u, { m with messageCache := (k, u) :: m.messageCache })

/-- `CassandraIDMapper.get_role_id_by_name`: tries the exact name, then the
name with `_ROLE` occurrences removed, then (when the name does not already
end in `_ROLE`) the name with `_ROLE` appended, all against the in-memory
role-name cache; every comparison is case-sensitive string equality. -/
def CassandraIDMapper.get_role_id_by_name (m : CassandraIDMapper)
    (roleName : String) : Option Int :=
  if roleName = "" then none
  else
    match lookupKey m.roleNameCache roleName with
    | some v => some v
    | none =>
      match lookupKey m.roleNameCache (stripRole roleName) with
      | some v => some v
      | none =>
        if endsWithRole roleName then none
        else lookupKey m.roleNameCache (roleName ++ "_ROLE")

/-! ## CassandraLoader.load_batch (etl/loaders/cassandra_loader.py)

The Cassandra session is modelled by an oracle giving the outcome of the
n-th `session.execute` submission (full batches, micro-batches and
individual retry statements all consume the oracle in call order), and each
row carries the outcome of its `batch.add` call.  The batch-submission
handler classifies a pool-shutdown error (return immediately), an
oversized-batch error (split into micro-batches of 10 and shrink the batch
size), and any other error (count the whole batch as failed). -/

/-- Outcome of a `session.execute` submission, as classified by the
`load_batch` error handlers. -/
inductive SubmitRes where
  | ok : SubmitRes
  | tooLarge : SubmitRes
  | poolShutdown : SubmitRes
  | otherError : SubmitRes
  deriving DecidableEq

/-- Outcome of a `batch.add` call for one row (tuple construction plus
driver-side add), as classified by the per-row handler. -/
inductive AddRes where
  | ok : AddRes
  | poolShutdown : AddRes
  | otherError : AddRes
  deriving DecidableEq

/-- One input row of `load_batch`: its payload is irrelevant to the control
flow except through the outcome of adding it to a batch statement. -/
structure Row where
  tag : Nat
  addRes : AddRes
  deriving DecidableEq

/-- The session oracle: outcome of the n-th `session.execute` call. -/
def Oracle : Type := Nat → SubmitRes

/-- The mutable state of one `load_batch` call: `loaded` is
`loaded_count`, `errs` is `errors_in_batch`, `cur` is
`current_batch_records`, `batchCount` is `batch_count`, `batchSize` the
adaptive `batch_size`, `failed` is `failed_records`, `calls` counts the
`session.execute` submissions made so far, and `aborted` records that the
pool-shutdown classification fired (Python `return loaded_count`). -/
structure LB where
  loaded : Nat
  errs : Nat
  batchCount : Nat
  cur : List Row
  batchSize : Nat
  failed : List Row
  calls : Nat
  aborted : Bool
  deriving DecidableEq

/-- Entity-specific starting batch size: 100 for `message`, else 500. -/
def initBatchSize (entity : String) : Nat :=
  if entity = "message" then 100 else 500

/-- Structural worker for `chunks10`: the first argument is fuel, always
called with at least the list's length. -/
def chunksGo : Nat → List Row → List (List Row)
  | _, [] => []
  | 0, _ :: _ => []
  | n + 1, r :: rest => (r :: rest).take 10 :: chunksGo n ((r :: rest).drop 10)

/-- Slices a list into consecutive chunks of 10, the micro-batch size used
when an oversized batch is split (`range(0, len, 10)` slicing). -/
def chunks10 (l : List Row) : List (List Row) :=
  chunksGo l.length l

/-- Submits each micro-batch in order: a successful chunk advances
`loaded` by its length; a chunk that fails for any reason is appended
whole to the individual-retry queue, never split further. -/
def runChunks (o : Oracle) : List (List Row) → LB → LB
  | [], s => s
  | c :: cs, s =>
    if o s.calls = SubmitRes.ok then
      runChunks o cs { s with loaded := s.loaded + c.length, calls := s.calls + 1 }
    else
      runChunks o cs { s with failed := s.failed ++ c, calls := s.calls + 1 }

/-- Submission of a full batch inside the main loop, including its error
handlers: success commits the batch; a pool-shutdown error returns
immediately; an oversized-batch error re-submits the batch's rows as
micro-batches of 10 and then halves the batch size (floor 50); any other
error counts the whole batch as failed.  The Python `finally` resets the
batch statement and `batch_count` in every branch. -/
def submitFull (o : Oracle) (s : LB) : LB :=
  match o s.calls with
  | SubmitRes.ok =>
    { s with loaded := s.loaded + s.batchCount, cur := [],
             calls := s.calls + 1, batchCount := 0 }
  | SubmitRes.poolShutdown =>
    { s with aborted := true, calls := s.calls + 1, batchCount := 0 }
  | SubmitRes.tooLarge =>
    let s₁ := runChunks o (chunks10 s.cur) { s with calls := s.calls + 1 }
    let s₂ := { s₁ with cur := [], batchCount := 0 }
    if 50 < s₂.batchSize then { s₂ with batchSize := max 50 (s₂.batchSize / 2) }
    else s₂
  | SubmitRes.otherError =>
    { s with errs := s.errs + s.batchCount, cur := [],
             calls := s.calls + 1, batchCount := 0 }

/-- One iteration of the main row loop: adding the row to the batch can
itself fail (pool shutdown returns immediately; any other add error counts
the row as failed and skips it); a successfully added row joins the
current batch, which is submitted once it reaches the batch size. -/
def addRow (o : Oracle) (s : LB) (r : Row) : LB :=
  if s.aborted then s
  else
    match r.addRes with
    | AddRes.poolShutdown => { s with aborted := true }
    | AddRes.otherError => { s with errs := s.errs + 1 }
    | AddRes.ok =>
      let s₁ := { s with batchCount := s.batchCount + 1, cur := s.cur ++ [r] }
      if s₁.batchSize ≤ s₁.batchCount then submitFull o s₁ else s₁

/-- Submission of the remaining partial batch after the main loop.  Note
the faithful asymmetries of this handler: an oversized batch is split into
micro-batches but the batch size is not reduced, and there is no
pool-shutdown classification here — any non-oversized error (including a
pool shutdown) counts the batch as failed and the call continues. -/
def finalFlush (o : Oracle) (s : LB) : LB :=
  if s.aborted then s
  else if 0 < s.batchCount then
    match o s.calls with
    | SubmitRes.ok =>
      { s with loaded := s.loaded + s.batchCount, cur := [], calls := s.calls + 1 }
    | SubmitRes.tooLarge =>
      let s₁ := runChunks o (chunks10 s.cur) { s with calls := s.calls + 1 }
      { s₁ with cur := [] }
    | _ => { s with errs := s.errs + s.batchCount, calls := s.calls + 1 }
  else s

/-- Replays the individual-retry queue one row at a time with a per-row
statement; each success advances `loaded`, each failure advances the
`retry_failed` counter.  Returns the final state and `retry_failed`. -/
def runRetry (o : Oracle) : List Row → LB → Nat → LB × Nat
  | [], s, rf => (s, rf)
  | _ :: rs, s, rf =>
    if o s.calls = SubmitRes.ok then
      runRetry o rs { s with loaded := s.loaded + 1, calls := s.calls + 1 } rf
    else
      runRetry o rs { s with calls := s.calls + 1 } (rf + 1)

/-- Observable outcome of one `load_batch` call.  `errs` is the final
`errors_in_batch` value — which the source overwrites with the
retry-failure count whenever any individual retry fails — while
`errsOther` keeps the pre-overwrite error count and `retryFailed` the
number of rows that failed even the individual retry. -/
structure LBOut where
  loaded : Nat
  errs : Nat
  errsOther : Nat
  retryFailed : Nat
  aborted : Bool
  calls : Nat
  deriving DecidableEq

/-- The state at the start of a `load_batch` call. -/
def initLB (entity : String) : LB :=
  { loaded := 0, errs := 0, batchCount := 0, cur := [],
    batchSize := initBatchSize entity, failed := [], calls := 0,
    aborted := false }

/-- `CassandraLoader._get_table_name`: the `cassandra` entry of the
entity's `COLLECTION_MAPPINGS` record, or the empty string when the
mapping has none (`mapping.get('cassandra', '')` in `settings.py`). -/
def cassandraTable (entity : String) : String :=
  if entity = "roles" then "role"
  else if entity = "user" then "users"
  else if entity = "room" then "room_details"
  else if entity = "message" then "messages_by_room"
  else if entity = "room_member" then "participants_by_room"
  else ""

/-- `CassandraLoader.load_batch`: an empty input returns 0 immediately; a
missing target table returns 0 with nothing accounted (lines 96-100);
everything from statement preparation onward sits in the outer
`try`/`except Exception` whose handler just logs and returns the current
`loaded_count` — so a prepare failure (`prepareOk = false`) also returns
with zero rows accounted.  Otherwise the call folds the main row loop
over the input, flushes the remaining batch, and (unless the
pool-shutdown classification aborted the call) replays the
individual-retry queue; finally `errors_in_batch` is overwritten with
`retry_failed` when the latter is positive. -/
def load_batch (o : Oracle) (prepareOk : Bool) (entity : String)
    (rows : List Row) : LBOut :=
  if rows = [] then ⟨0, 0, 0, 0, false, 0⟩
  else if cassandraTable entity = "" then ⟨0, 0, 0, 0, false, 0⟩
  else if prepareOk then
    let s₁ := rows.foldl (addRow o) (initLB entity)
    let s₂ := finalFlush o s₁
    if s₂.aborted then
      ⟨s₂.loaded, s₂.errs, s₂.errs, 0, true, s₂.calls⟩
    else
      let r := runRetry o s₂.failed s₂ 0
      ⟨r.1.loaded, if 0 < r.2 then r.2 else r.1.errs, r.1.errs, r.2, false,
       r.1.calls⟩
  else ⟨0, 0, 0, 0, false, 0⟩

/-! ## PostgresLoader.load_batch (etl/loaders/postgres_loader.py) -/

/-- `PostgresLoader._get_table_name`: the `postgres` entry of the
entity's `COLLECTION_MAPPINGS` record, or the empty string. -/
def postgresTable (entity : String) : String :=
  if entity = "roles" then "role"
  else if entity = "province" then "province"
  else if entity = "municipality" then "municipality"
  else if entity = "parroquia" then "parroquia"
  else if entity = "profession" then "profession"
  else if entity = "entity" then "entities"
  else if entity = "user" then "user"
  else if entity = "channel" then "channel"
  else if entity = "docs" then "docs"
  else if entity = "live" then "live"
  else if entity = "profession_user" then "profession_user"
  else if entity = "entities_user" then "entities_user"
  else ""

/-- One input row of the relational loader: only the outcome of its
row-by-row fallback insert matters to the control flow. -/
structure PgRow where
  tag : Nat
  insertOk : Bool
  deriving DecidableEq

/-- Observable outcome of one `PostgresLoader.load_batch` call: the
returned `loaded_count`, the (unreported) number of rows the fallback
loop dropped from the count, and whether the fallback was used. -/
structure PgOut where
  loaded : Nat
  fallbackFailed : Nat
  usedFallback : Bool
  deriving DecidableEq

/-- `PostgresLoader.load_batch`: empty input or missing target table
returns 0; otherwise the bulk `COPY FROM` path (`_bulk_copy`) either
loads every row in one atomic transaction or raises, in which case the
loader falls back to row-by-row inserts where each row either increments
`loaded_count` or is skipped — the loader keeps no failure counter at
all, so fallback failures are visible only as `attempted - loaded`. -/
def pg_load_batch (bulkOk : Bool) (entity : String) (rows : List PgRow) :
    PgOut :=
  if rows = [] then ⟨0, 0, false⟩
  else if postgresTable entity = "" then ⟨0, 0, false⟩
  else if bulkOk then ⟨rows.length, 0, false⟩
  else
    ⟨rows.countP (fun r => r.insertOk), rows.countP (fun r => !r.insertOk),
     true⟩

/-! ## Orchestrator entity list and dispatch (etl/orchestrator.py) -/

/-- The `(order, entity_name)` pairs built by `_get_entities_to_migrate`
from `settings.COLLECTION_MAPPINGS`, in declaration order of the dict
(Python dicts preserve insertion order); each `order` value is the
mapping's `order` field. -/
def entityOrderList : List (Nat × String) :=
  [(1, "roles"), (2, "province"), (3, "municipality"), (4, "parroquia"),
   (5, "profession"), (6, "entity"), (7, "user"), (8, "channel"),
   (9, "docs"), (10, "live"), (11, "room"), (12, "message"),
   (13, "room_member"), (14, "profession_user"), (15, "entities_user")]

/-- Comparison used by `entity_list.sort(key=lambda x: x[0])`. -/
def ordLE (a b : Nat × String) : Prop := a.1 ≤ b.1

instance : DecidableRel ordLE := fun a b => inferInstanceAs (Decidable (a.1 ≤ b.1))

instance : IsTotal (Nat × String) ordLE := ⟨fun a b => Nat.le_total a.1 b.1⟩

instance : IsTrans (Nat × String) ordLE := ⟨fun _ _ _ => Nat.le_trans⟩

/-- The stable sort by the `order` field performed by
`_get_entities_to_migrate` (Python `list.sort` is stable; insertion sort
realises the same stable result). -/
def sortByOrder (l : List (Nat × String)) : List (Nat × String) :=
  List.insertionSort ordLE l

/-- `ETLOrchestrator._get_entities_to_migrate`: a truthy explicit list is
returned unmodified; otherwise (including an explicitly empty list, which
is falsy in Python) the configured entities sorted by `order`. -/
def getEntitiesToMigrate (entities : Option (List String)) : List String :=
  match entities with
  | some es => if es = [] then (sortByOrder entityOrderList).map Prod.snd else es
  | none => (sortByOrder entityOrderList).map Prod.snd

/-- The two execution modes of `ETLOrchestrator.run`. -/
inductive ExecMode where
  | par : ExecMode
  | seq : ExecMode
  deriving DecidableEq

/-- The dispatch decision of `ETLOrchestrator.run`:
`if parallel and settings.MAX_WORKERS > 1 and len(entities) == 1`. -/
def runDispatch (parallel : Bool) (maxWorkers : Nat)
    (entities : List String) : ExecMode :=
  if parallel = true ∧ 1 < maxWorkers ∧ entities.length = 1 then ExecMode.par
  else ExecMode.seq

/-- `_process_entities_sequential`: each entity is processed in turn, in
list order, collecting per-entity results. -/
def processSequential {α : Type} (runEntity : String → α) :
    List String → List α
  | [] => []
  | e :: es => runEntity e :: processSequential runEntity es

/-! ## Hierarchical docs processing (ETLOrchestrator._process_docs_hierarchical) -/

/-- A source `docs` document, reduced to the fields the hierarchical
migration inspects: whether it is a folder, its parent path `onFolder`,
its own name, its source key, and whether the transformer accepts it
(returns a mapped record rather than `None`). -/
structure Doc where
  isFolder : Bool
  onFolder : String
  name : String
  mongoId : String
  transformOk : Bool
  deriving DecidableEq

/-- `get_path_depth`: `'/'` counts as depth 0, otherwise the number of
slashes in the path. -/
def pathDepth (p : String) : Nat :=
  if p = "/" then 0 else p.data.count '/'

/-- The full path built for a migrated folder:
`'/name'` under the root, else `'onFolder/name'`. -/
def fullPath (d : Doc) : String :=
  if d.onFolder = "/" then "/" ++ d.name else d.onFolder ++ "/" ++ d.name

/-- Folders of one depth level, in original extraction order (the Python
code sorts stably by depth and then buckets, which preserves the original
relative order inside each bucket, i.e. is the by-depth filter). -/
def levelOf (folders : List Doc) (d : Nat) : List Doc :=
  folders.filter (fun f => pathDepth f.onFolder = d)

/-- `max_depth` over the folder list, starting from 0. -/
def maxDepth (folders : List Doc) : Nat :=
  folders.foldr (fun f acc => max (pathDepth f.onFolder) acc) 0

/-- A transformed docs row as far as the hierarchy is concerned: the
source key and the integer parent reference written into `onFolder`. -/
structure FolderRec where
  mongoId : String
  parentId : Int
  deriving DecidableEq

/-- Transformation of one folder level against the current path map: each
accepted folder resolves its parent from the map with default root
reference 0 (`path_to_id_map.get(on_folder_path, 0)`), and contributes a
`(full path, assigned surrogate)` map entry for the bulk-resolve step. -/
def processFolderLevel (assign : String → Int) (pmap : List (String × Int))
    (level : List Doc) : List FolderRec × List (String × Int) :=
  let ok := level.filter (fun f => f.transformOk)
  (ok.map (fun f => ⟨f.mongoId, (lookupKey pmap f.onFolder).getD 0⟩),
   ok.map (fun f => (fullPath f, assign f.mongoId)))

/-- Trace events of phase 1: one `load_batch` call per non-empty level and
one bulk id-resolving query per loaded level. -/
inductive Ev where
  | load : Nat → List FolderRec → Ev
  | resolve : Nat → List (String × Int) → Ev
  deriving DecidableEq

/-- Result of folder phase 1: records in processing order, final path map,
and the trace of load/resolve events. -/
structure Phase1Out where
  recs : List FolderRec
  pmap : List (String × Int)
  trace : List Ev

/-- Phase 1 of `_process_docs_hierarchical`, walking the given depth
levels in order: an empty level is skipped; otherwise the whole level is
transformed against the current path map, loaded as a single batch, and
then the level's newly assigned surrogates are bulk-resolved in one query
and prepended to the path map (dict overwrite order) before the next
level is processed.  Loads are modelled as succeeding (`loaded > 0`),
which is the premise under which the source extends the map. -/
def phase1Go (assign : String → Int) (folders : List Doc) :
    List Nat → List (String × Int) → Phase1Out
  | [], pmap => ⟨[], pmap, []⟩
  | d :: ds, pmap =>
    let out := processFolderLevel assign pmap (levelOf folders d)
    if out.1 = [] then phase1Go assign folders ds pmap
    else
      let rest := phase1Go assign folders ds (out.2.reverse ++ pmap)
      ⟨out.1 ++ rest.recs, rest.pmap,
       Ev.load d out.1 :: Ev.resolve d out.2 :: rest.trace⟩

/-- Result of file phase 2: records in order, the set of flagged unmapped
parent paths (`unmapped_folders`), and the count of transformer-skipped
files. -/
structure Phase2Out where
  recs : List FolderRec
  unmapped : List String
  skipped : Nat

/-- Phase 2 of `_process_docs_hierarchical`: each file is transformed
(`None` means skipped and counted), its parent path normalised (empty
becomes the root), resolved through the final path map; an absent path is
assigned the default root reference 0 and the path is flagged in
`unmapped_folders`, but the record is still kept for loading. -/
def phase2 (pmap : List (String × Int)) : List Doc → Phase2Out
  | [] => ⟨[], [], 0⟩
  | f :: fs =>
    let rest := phase2 pmap fs
    if f.transformOk then
      let path := if f.onFolder = "" then "/" else f.onFolder
      match lookupKey pmap path with
      | some fid => ⟨⟨f.mongoId, fid⟩ :: rest.recs, rest.unmapped, rest.skipped⟩
      | none =>
        ⟨⟨f.mongoId, (0 : Int)⟩ :: rest.recs, path :: rest.unmapped, rest.skipped⟩
    else ⟨rest.recs, rest.unmapped, rest.skipped + 1⟩

/-- Combined observable outcome of `_process_docs_hierarchical`. -/
structure DocsOut where
  folderRecs : List FolderRec
  fileRecs : List FolderRec
  pmap : List (String × Int)
  unmapped : List String
  trace : List Ev
  skippedFiles : Nat

/-- `_process_docs_hierarchical`: split the extracted docs into folders
and files, run folder phase 1 over depth levels `0 .. max_depth` starting
from the root map `{'/' : 0}`, then file phase 2 against the final path
map. -/
def processDocsHierarchical (assign : String → Int) (docs : List Doc) :
    DocsOut :=
  let folders := docs.filter (fun d => d.isFolder)
  let files := docs.filter (fun d => ¬d.isFolder)
  let p1 := phase1Go assign folders (List.range (maxDepth folders + 1)) [("/", 0)]
  let p2 := phase2 p1.pmap files
  ⟨p1.recs, p2.recs, p1.pmap, p2.unmapped, p1.trace, p2.skipped⟩

/-- Depths of the `load` events of a phase-1 trace, in trace order. -/
def loadDepths (t : List Ev) : List Nat :=
  t.filterMap (fun e =>
    match e with
    | Ev.load d _ => some d
    | Ev.resolve _ _ => none)

/-- A well-formed phase-1 trace: every level's single `load_batch` call is
immediately followed by that level's single bulk-resolve query, before
any later level is touched. -/
def wellFormedTrace : List Ev → Bool
  | [] => true
  | Ev.load d _ :: Ev.resolve e _ :: rest => d = e && wellFormedTrace rest
  | _ => false

/-! ## Helper lemmas -/

/-- ASCII lower-casing of one character; used only to state that a
case-insensitive counterpart of a key exists in a catalog. -/
def lowerChar (c : Char) : Char :=
  if 'A' ≤ c ∧ c ≤ 'Z' then Char.ofNat (c.toNat + 32) else c

/-- Case-folded character content of a string. -/
def caseFold (s : String) : List Char := s.data.map lowerChar

/-- A successful association-list lookup returns an entry of the list. -/
theorem lookupKey_mem {α : Type} {c : List (String × α)} {k : String} {v : α}
    (h : lookupKey c k = some v) : (k, v) ∈ c := by
  induction c with
  | nil => simp [lookupKey] at h
  | cons p rest ih =>
    obtain ⟨k₁, v₁⟩ := p
    by_cases hk : k₁ = k
    · subst hk
      simp [lookupKey] at h
      subst h
      exact List.mem_cons_self _ _
    · simp [lookupKey, hk] at h
      exact List.mem_cons_of_mem _ (ih h)

/-! ## Claim theorems -/

/-- Claim C9: the relational-store identity registry never caches absence —
whenever `get_postgres_id` returns `None` (key falsy, row not found, or
lookup error) the cache is left unchanged — and after `add_to_cache` with a
truthy key and non-zero surrogate, resolving that key on any database state
returns that surrogate from cache with zero database round trips. -/
theorem idmapper_never_caches_absence :
    (∀ (db : PgDb) (m : IDMapper) (table k : String),
      (IDMapper.get_postgres_id db m table k).result = none →
        (IDMapper.get_postgres_id db m table k).mapper = m) ∧
    (∀ (db : PgDb) (m : IDMapper) (table k : String) (v : Int),
      k ≠ "" → v ≠ 0 →
        IDMapper.get_postgres_id db (m.add_to_cache table k v) table k =
          ⟨some v, m.add_to_cache table k v, 0⟩) := by
  constructor
  · intro db m table k
    unfold IDMapper.get_postgres_id
    by_cases hk : k = ""
    · simp [hk]
    · simp only [if_neg hk]
      cases hcache : lookupKey m.cache (cacheKey table k) with
      | some v => simp
      | none =>
        cases hdb : db table k with
        | found v => simp
        | notFound => simp
        | err => simp
  · intro db m table k v hk hv
    unfold IDMapper.add_to_cache IDMapper.get_postgres_id
    simp only [ne_eq, hk, not_false_iff, hv, and_self, if_true, if_neg hk]
    simp [lookupKey]

/-- Witness for `idmapper_never_caches_absence` at a concrete registry. -/
theorem idmapper_never_caches_absence_witness :
    IDMapper.get_postgres_id (fun _ _ => LookupRes.notFound)
        (IDMapper.add_to_cache ⟨[]⟩ "user" "abc" 7) "user" "abc" =
      ⟨some 7, IDMapper.add_to_cache ⟨[]⟩ "user" "abc" 7, 0⟩ :=
  idmapper_never_caches_absence.2 (fun _ _ => LookupRes.notFound) ⟨[]⟩
    "user" "abc" 7 (by decide) (by decide)

/-- Claim C10: on an empty source key the cross-store derive functions
bypass their caches and produce a fresh identifier each call —
`get_room_id` a fresh random UUID4, `get_user_id` the next sequential
integer (consuming the counter, not caching it), `get_message_id` a
time-UUID of the given/ambient timestamp — so two calls may return
different identifiers. -/
theorem empty_key_derives_fresh (m : CassandraIDMapper) (entropy e₂ : Nat)
    (now : Int) (ca : Option Int) :
    m.get_room_id entropy "" = (UUID.uuid4 entropy, m) ∧
    m.get_user_id "" = (m.nextUserId, { m with nextUserId := m.nextUserId + 1 }) ∧
    m.get_message_id now "" ca = (UUID.fromTime (ca.getD now), m) ∧
    ((m.get_user_id "").2.get_user_id "").1 ≠ (m.get_user_id "").1 ∧
    (entropy ≠ e₂ → (m.get_room_id entropy "").1 ≠ (m.get_room_id e₂ "").1) := by
  refine ⟨rfl, rfl, rfl, ?_, ?_⟩
  · simp [CassandraIDMapper.get_user_id, CassandraIDMapper.generateUserId]
  · intro hne
    simpa [CassandraIDMapper.get_room_id] using hne

/-- Witness for `empty_key_derives_fresh` on a fresh registry. -/
theorem empty_key_derives_fresh_witness :
    ((CassandraIDMapper.fresh none).get_room_id 0 "").1 ≠
      ((CassandraIDMapper.fresh none).get_room_id 1 "").1 :=
  (empty_key_derives_fresh (CassandraIDMapper.fresh none) 0 1 0 none).2.2.2.2
    (by decide)

/-- Invariant of the room cache: every entry is the deterministic UUID5 of
its key.  It holds for a fresh registry and nothing else ever writes the
room cache, so it holds in every reachable state. -/
def RoomCacheGood (c : List (String × UUID)) : Prop :=
  ∀ p ∈ c, p.2 = UUID.uuid5 NAMESPACE_OID p.1

/-- Claim C5: for a non-empty key the room-id derivation equals
`UUID5(NAMESPACE_OID, key)` — a pure, memoized function of the key alone
(the model takes no store argument, as the source never consults one):
under the room-cache invariant every call returns exactly that UUID, the
invariant is preserved, a fresh registry satisfies it, repeated calls on
one instance agree, and two independently constructed instances agree. -/
theorem room_id_deterministic :
    (∀ (m : CassandraIDMapper) (e : Nat) (k : String), k ≠ "" →
      RoomCacheGood m.roomCache →
        (m.get_room_id e k).1 = UUID.uuid5 NAMESPACE_OID k) ∧
    (∀ (m : CassandraIDMapper) (e : Nat) (k : String),
      RoomCacheGood m.roomCache →
        RoomCacheGood (m.get_room_id e k).2.roomCache) ∧
    (∀ pg, RoomCacheGood (CassandraIDMapper.fresh pg).roomCache) ∧
    (∀ (m : CassandraIDMapper) (e₁ e₂ : Nat) (k : String), k ≠ "" →
      ((m.get_room_id e₁ k).2.get_room_id e₂ k).1 = (m.get_room_id e₁ k).1) ∧
    (∀ (pg₁ pg₂ : Option PgDb) (e₁ e₂ : Nat) (k : String), k ≠ "" →
      ((CassandraIDMapper.fresh pg₁).get_room_id e₁ k).1 =
        ((CassandraIDMapper.fresh pg₂).get_room_id e₂ k).1) := by
  have hget : ∀ (m : CassandraIDMapper) (e : Nat) (k : String), k ≠ "" →
      RoomCacheGood m.roomCache →
      (m.get_room_id e k).1 = UUID.uuid5 NAMESPACE_OID k := by
    intro m e k hk hgood
    unfold CassandraIDMapper.get_room_id
    simp only [if_neg hk]
    cases hcache : lookupKey m.roomCache k with
    | some u => simpa using hgood _ (lookupKey_mem hcache)
    | none => simp
  refine ⟨hget, ?_, ?_, ?_, ?_⟩
  · intro m e k hgood
    unfold CassandraIDMapper.get_room_id
    by_cases hk : k = ""
    · simpa [hk] using hgood
    · simp only [if_neg hk]
      cases hcache : lookupKey m.roomCache k with
      | some u => simpa using hgood
      | none =>
        simp only
        intro p hp
        rcases List.mem_cons.mp hp with h | h
        · subst h; rfl
        · exact hgood _ h
  · intro pg p hp
    simp [CassandraIDMapper.fresh] at hp
  · intro m e₁ e₂ k hk
    unfold CassandraIDMapper.get_room_id
    simp only [if_neg hk]
    cases hcache : lookupKey m.roomCache k with
    | some u => simp [hcache]
    | none => simp [lookupKey]
  · intro pg₁ pg₂ e₁ e₂ k hk
    unfold CassandraIDMapper.get_room_id CassandraIDMapper.fresh
    simp [if_neg hk, lookupKey]

/-- Witness for `room_id_deterministic`: two fresh registries derive the
same deterministic UUID for the key `"abc"`. -/
theorem room_id_deterministic_witness :
    ((CassandraIDMapper.fresh none).get_room_id 0 "abc").1 =
      ((CassandraIDMapper.fresh (some (fun _ _ => LookupRes.err))).get_room_id
        1 "abc").1 :=
  room_id_deterministic.2.2.2.2 none (some (fun _ _ => LookupRes.err)) 0 1
    "abc" (by decide)

/-- Claim C1: for a dual-strategy entity (the `user` table), once the
relational store has ingested key `k` (its row maps `k` to surrogate `v`)
and a relational-store handle is configured in the cross-store registry,
and neither registry's cache holds a stale different value for `k`
(either empty or already the adopted `v`), resolving `k` through
`IDMapper.get_postgres_id` and through `CassandraIDMapper.get_user_id`
returns numerically equal surrogate integers, namely `v`. -/
theorem dual_user_id_sync (db : PgDb) (pgm : IDMapper)
    (cm : CassandraIDMapper) (k : String) (v : Int)
    (hk : k ≠ "")
    (hdb : db "user" k = LookupRes.found v)
    (hconn : cm.postgresConnection = some db)
    (hc1 : lookupKey pgm.cache (cacheKey "user" k) = none ∨
           lookupKey pgm.cache (cacheKey "user" k) = some v)
    (hc2 : lookupKey cm.userCache k = none ∨
           lookupKey cm.userCache k = some v) :
    (IDMapper.get_postgres_id db pgm "user" k).result = some v ∧
    (cm.get_user_id k).1 = v := by
  constructor
  · unfold IDMapper.get_postgres_id
    simp only [if_neg hk]
    rcases hc1 with h | h
    · simp [h, hdb]
    · simp [h]
  · unfold CassandraIDMapper.get_user_id
    simp only [if_neg hk]
    rcases hc2 with h | h
    · simp [h, hconn, hdb]
    · simp [h]

/-- Concrete relational store for the claim witnesses: the `user` table
holds one row mapping `"abc"` to surrogate 7. -/
def pgDbW : PgDb := fun table k =>
  if table = "user" ∧ k = "abc" then LookupRes.found 7 else LookupRes.notFound

/-- Witness for `dual_user_id_sync` on fresh registries over `pgDbW`. -/
theorem dual_user_id_sync_witness :
    (IDMapper.get_postgres_id pgDbW ⟨[]⟩ "user" "abc").result = some 7 ∧
    ((CassandraIDMapper.fresh (some pgDbW)).get_user_id "abc").1 = 7 :=
  dual_user_id_sync pgDbW ⟨[]⟩ (CassandraIDMapper.fresh (some pgDbW)) "abc" 7
    (by decide) (by decide) rfl (Or.inl rfl) (Or.inl rfl)

/-- Cross-store registry whose role-name catalog holds the lower-case name
`"user"` with id 1. -/
def roleMapperCE : CassandraIDMapper :=
  { CassandraIDMapper.fresh none with roleNameCache := [("user", 1)] }

/-- Relational role catalog holding only the name `"user"`. -/
def roleDbLower : RoleDb := fun n =>
  if n = "user" then LookupRes.found 1 else LookupRes.notFound

/-- Relational role catalog holding only the suffixed name `"USER_ROLE"`. -/
def roleDbSuffixed : RoleDb := fun n =>
  if n = "USER_ROLE" then LookupRes.found 3 else LookupRes.notFound

/-- Counterexample to claim C8: role-name resolution is not
case-insensitive — with the catalog entry `"user"` (case-insensitively
equal to the query `"USER"`), both registries return absent — and the
relational registry does not try the suffixed form: with only
`"USER_ROLE"` in the store, resolving `"USER"` returns absent. -/
theorem role_name_case_insensitive_counterexample :
    caseFold "USER" = caseFold "user" ∧
    lookupKey roleMapperCE.roleNameCache "user" = some 1 ∧
    roleMapperCE.get_role_id_by_name "USER" = none ∧
    roleDbLower "user" = LookupRes.found 1 ∧
    (IDMapper.get_role_id_by_name roleDbLower ⟨[]⟩ "USER").result = none ∧
    roleDbSuffixed "USER_ROLE" = LookupRes.found 3 ∧
    (IDMapper.get_role_id_by_name roleDbSuffixed ⟨[]⟩ "USER").result = none := by
  decide

/-- Claim C8 as amended: role-name resolution is case-sensitive.  The
cross-store registry tries, in order, the exact name, the name with every
`"_ROLE"` occurrence removed, and — when the name does not already end in
`"_ROLE"` — the suffixed name, against its in-memory catalog, returning
absent only when all of these fail; the relational registry tries only the
stripped name, first in its cache then in the store, and returns absent
when both fail (a lookup error also yields absent). -/
theorem role_name_resolution_amended :
    (∀ (m : CassandraIDMapper) (name : String) (v : Int), name ≠ "" →
      lookupKey m.roleNameCache name = some v →
        m.get_role_id_by_name name = some v) ∧
    (∀ (m : CassandraIDMapper) (name : String) (v : Int), name ≠ "" →
      lookupKey m.roleNameCache name = none →
      lookupKey m.roleNameCache (stripRole name) = some v →
        m.get_role_id_by_name name = some v) ∧
    (∀ (m : CassandraIDMapper) (name : String), name ≠ "" →
      lookupKey m.roleNameCache name = none →
      lookupKey m.roleNameCache (stripRole name) = none →
        m.get_role_id_by_name name =
          (if endsWithRole name then none
           else lookupKey m.roleNameCache (name ++ "_ROLE"))) ∧
    (∀ (roleDb : RoleDb) (m : IDMapper) (name : String) (v : Int), name ≠ "" →
      lookupKey m.cache ("role_name:" ++ stripRole name) = some v →
        (IDMapper.get_role_id_by_name roleDb m name).result = some v) ∧
    (∀ (roleDb : RoleDb) (m : IDMapper) (name : String), name ≠ "" →
      lookupKey m.cache ("role_name:" ++ stripRole name) = none →
        (IDMapper.get_role_id_by_name roleDb m name).result =
          (match roleDb (stripRole name) with
           | LookupRes.found v => some v
           | LookupRes.notFound => none
           | LookupRes.err => none)) := by
  refine ⟨?_, ?_, ?_, ?_, ?_⟩
  · intro m name v hn h
    unfold CassandraIDMapper.get_role_id_by_name
    rw [if_neg hn, h]
  · intro m name v hn h₁ h₂
    unfold CassandraIDMapper.get_role_id_by_name
    rw [if_neg hn, h₁, h₂]
  · intro m name hn h₁ h₂
    unfold CassandraIDMapper.get_role_id_by_name
    rw [if_neg hn, h₁, h₂]
  · intro roleDb m name v hn h
    unfold IDMapper.get_role_id_by_name
    rw [if_neg hn]
    simp only [h]
  · intro roleDb m name hn h
    unfold IDMapper.get_role_id_by_name
    rw [if_neg hn]
    simp only [h]
    cases roleDb (stripRole name) <;> rfl

/-- Witness for `role_name_resolution_amended`: the cross-store catalog
entry `"AGENTE"` is found under the query `"AGENTE_ROLE"` via the
stripped-name step. -/
theorem role_name_resolution_amended_witness :
    ({ CassandraIDMapper.fresh none with
        roleNameCache := [("AGENTE", 2)] } :
      CassandraIDMapper).get_role_id_by_name "AGENTE_ROLE" = some 2 :=
  role_name_resolution_amended.2.1
    { CassandraIDMapper.fresh none with roleNameCache := [("AGENTE", 2)] }
    "AGENTE_ROLE" 2 (by decide) (by decide) (by decide)

/-- Claim C6: with no explicit entity list the pipeline builds its
execution list by sorting the configured entities by `order` ascending
with declaration order as a stable tie-break (the sort is a permutation,
sorted by `ordLE`, and preserves the relative order of any
`ordLE`-related pair, in particular of ties); an explicit non-empty list
is used unmodified; parallel dispatch happens exactly when the parallel
flag is set, more than one worker is configured, and exactly one entity
is requested; and sequential processing visits the list strictly in
order. -/
theorem entity_list_and_dispatch :
    (∀ es : List String, es ≠ [] → getEntitiesToMigrate (some es) = es) ∧
    getEntitiesToMigrate none = (sortByOrder entityOrderList).map Prod.snd ∧
    (∀ l : List (Nat × String), List.Sorted ordLE (sortByOrder l)) ∧
    (∀ l : List (Nat × String), List.Perm (sortByOrder l) l) ∧
    (∀ (l : List (Nat × String)) (a b : Nat × String), ordLE a b →
      List.Sublist [a, b] l → List.Sublist [a, b] (sortByOrder l)) ∧
    getEntitiesToMigrate none =
      ["roles", "province", "municipality", "parroquia", "profession",
       "entity", "user", "channel", "docs", "live", "room", "message",
       "room_member", "profession_user", "entities_user"] ∧
    (∀ (p : Bool) (w : Nat) (es : List String),
      runDispatch p w es = ExecMode.par ↔
        (p = true ∧ 1 < w ∧ es.length = 1)) ∧
    (∀ (α : Type) (f : String → α) (es : List String),
      processSequential f es = es.map f) := by
  refine ⟨?_, rfl, ?_, ?_, ?_, by decide, ?_, ?_⟩
  · intro es h
    simp [getEntitiesToMigrate, h]
  · intro l
    exact List.sorted_insertionSort ordLE l
  · intro l
    exact List.perm_insertionSort ordLE l
  · intro l a b hab h
    exact List.pair_sublist_insertionSort hab h
  · intro p w es
    by_cases h : p = true ∧ 1 < w ∧ es.length = 1
    · simp [runDispatch, h]
    · simp only [runDispatch, if_neg h]
      constructor
      · intro hcontra
        cases hcontra
      · intro hcond
        exact absurd hcond h
  · intro α f es
    induction es with
    | nil => rfl
    | cons e es ih => simp [processSequential, ih]

/-- Witness for `entity_list_and_dispatch`: an explicit entity list passes
through unmodified. -/
theorem entity_list_and_dispatch_witness :
    getEntitiesToMigrate (some ["user", "roles"]) = ["user", "roles"] :=
  entity_list_and_dispatch.1 ["user", "roles"] (by decide)

/-! ## Loader lemmas -/

/-- Joining the micro-batch chunks gives back exactly the original rows. -/
theorem chunksGo_join :
    ∀ (n : Nat) (l : List Row), l.length ≤ n → (chunksGo n l).flatten = l := by
  intro n
  induction n with
  | zero =>
    intro l h
    cases l with
    | nil => rfl
    | cons a as => simp at h
  | succ n ih =>
    intro l h
    cases l with
    | nil => rfl
    | cons a as =>
      simp only [chunksGo, List.flatten_cons]
      rw [ih ((a :: as).drop 10) (by simp at h ⊢; omega)]
      exact List.take_append_drop 10 (a :: as)

/-- `chunks10` preserves the rows: its join is the original list. -/
theorem chunks10_join (l : List Row) : (chunks10 l).flatten = l :=
  chunksGo_join l.length l le_rfl

/-- Every micro-batch chunk is non-empty and has at most 10 rows. -/
theorem chunksGo_mem :
    ∀ (n : Nat) (l : List Row) (c : List Row), c ∈ chunksGo n l →
      c ≠ [] ∧ c.length ≤ 10 := by
  intro n
  induction n with
  | zero =>
    intro l c hc
    cases l with
    | nil => simp [chunksGo] at hc
    | cons a as => simp [chunksGo] at hc
  | succ n ih =>
    intro l c hc
    cases l with
    | nil => simp [chunksGo] at hc
    | cons a as =>
      simp only [chunksGo, List.mem_cons] at hc
      rcases hc with h | h
      · subst h
        constructor
        · simp
        · simp
      · exact ih _ _ h

/-- Every micro-batch of `chunks10` is non-empty and has at most 10 rows. -/
theorem chunks10_mem (l c : List Row) (hc : c ∈ chunks10 l) :
    c ≠ [] ∧ c.length ≤ 10 :=
  chunksGo_mem l.length l c hc

/-- Accounting of the micro-batch pass: the rows of failed chunks are
appended (in order, whole chunks) to the retry queue, the rest are counted
as loaded, one submission is made per chunk, and no other field of the
state changes. -/
theorem runChunks_spec (o : Oracle) :
    ∀ (cs : List (List Row)) (s : LB),
      ∃ fs : List Row,
        (runChunks o cs s).failed = s.failed ++ fs ∧
        List.Sublist fs cs.flatten ∧
        (runChunks o cs s).loaded + fs.length = s.loaded + cs.flatten.length ∧
        (runChunks o cs s).errs = s.errs ∧
        (runChunks o cs s).cur = s.cur ∧
        (runChunks o cs s).batchCount = s.batchCount ∧
        (runChunks o cs s).batchSize = s.batchSize ∧
        (runChunks o cs s).aborted = s.aborted ∧
        (runChunks o cs s).calls = s.calls + cs.length := by
  intro cs
  induction cs with
  | nil =>
    intro s
    exact ⟨[], by simp [runChunks]⟩
  | cons c cs ih =>
    intro s
    by_cases h : o s.calls = SubmitRes.ok
    · obtain ⟨fs, h1, h2, h3, h4, h5, h6, h7, h8, h9⟩ :=
        ih { s with loaded := s.loaded + c.length, calls := s.calls + 1 }
      refine ⟨fs, ?_⟩
      simp only [runChunks, if_pos h]
      refine ⟨h1, h2.trans (List.sublist_append_right _ _), ?_, h4, h5, h6, h7,
        h8, ?_⟩
      · simp only [List.flatten_cons, List.length_append] at h3 ⊢
        omega
      · simp only [List.length_cons] at h9 ⊢
        omega
    · obtain ⟨fs, h1, h2, h3, h4, h5, h6, h7, h8, h9⟩ :=
        ih { s with failed := s.failed ++ c, calls := s.calls + 1 }
      refine ⟨c ++ fs, ?_⟩
      simp only [runChunks, if_neg h]
      refine ⟨by rw [h1, List.append_assoc], List.Sublist.append_left h2 c,
        ?_, h4, h5, h6, h7, h8, ?_⟩
      · simp only [List.flatten_cons, List.length_append] at h3 ⊢
        omega
      · simp only [List.length_cons] at h9 ⊢
        omega

/-- Row conservation through a full-batch submission that does not trigger
the pool-shutdown classification: the rows of the submitted batch all end
up in `loaded`, in `errs`, or in the retry queue, and the batch counter
again matches the (now empty or unchanged) accumulation buffer. -/
theorem submitFull_balance (o : Oracle) (s : LB)
    (hbc : s.batchCount = s.cur.length)
    (hab : (submitFull o s).aborted = false) :
    (submitFull o s).loaded + (submitFull o s).errs +
        (submitFull o s).cur.length + (submitFull o s).failed.length =
      s.loaded + s.errs + s.cur.length + s.failed.length ∧
    (submitFull o s).batchCount = (submitFull o s).cur.length ∧
    (submitFull o s).aborted = s.aborted := by
  cases h : o s.calls with
  | ok =>
    refine ⟨?_, ?_, ?_⟩ <;> simp [submitFull, h] <;> omega
  | poolShutdown =>
    simp [submitFull, h] at hab
  | tooLarge =>
    obtain ⟨fs, h1, h2, h3, h4, h5, h6, h7, h8, h9⟩ :=
      runChunks_spec o (chunks10 s.cur) { s with calls := s.calls + 1 }
    rw [chunks10_join] at h3
    simp only at h3 h8
    refine ⟨?_, ?_, ?_⟩ <;>
      · simp only [submitFull, h]
        split <;> simp [h1, h4, h8] <;> omega
  | otherError =>
    refine ⟨?_, ?_, ?_⟩ <;> simp [submitFull, h] <;> omega

/-- An aborted state is frozen: the per-row loop skips everything. -/
theorem addRow_of_aborted (o : Oracle) (s : LB) (r : Row)
    (h : s.aborted = true) : addRow o s r = s := by
  simp [addRow, h]

/-- An aborted state is frozen through the whole main loop. -/
theorem foldl_addRow_of_aborted (o : Oracle) :
    ∀ (rows : List Row) (s : LB), s.aborted = true →
      rows.foldl (addRow o) s = s := by
  intro rows
  induction rows with
  | nil => intro s _; rfl
  | cons r rs ih =>
    intro s h
    rw [List.foldl_cons, addRow_of_aborted o s r h, ih s h]

/-- Row conservation through one iteration of the main loop, when neither
the add nor the submission triggers the pool-shutdown classification. -/
theorem addRow_balance (o : Oracle) (s : LB) (r : Row)
    (hbc : s.batchCount = s.cur.length) (hs : s.aborted = false)
    (hab : (addRow o s r).aborted = false) :
    (addRow o s r).loaded + (addRow o s r).errs +
        (addRow o s r).cur.length + (addRow o s r).failed.length =
      s.loaded + s.errs + s.cur.length + s.failed.length + 1 ∧
    (addRow o s r).batchCount = (addRow o s r).cur.length := by
  cases hr : r.addRes with
  | poolShutdown => simp [addRow, hs, hr] at hab
  | otherError =>
    refine ⟨?_, ?_⟩ <;> simp [addRow, hs, hr, hbc] <;> omega
  | ok =>
    simp only [addRow, hs, Bool.false_eq_true, if_false, hr] at hab ⊢
    by_cases hfull : s.batchSize ≤ s.batchCount + 1
    · rw [if_pos hfull] at hab ⊢
      obtain ⟨hb1, hb2, _⟩ :=
        submitFull_balance o
          { loaded := s.loaded, errs := s.errs,
            batchCount := s.batchCount + 1, cur := s.cur ++ [r],
            batchSize := s.batchSize, failed := s.failed, calls := s.calls,
            aborted := false }
          (by simp [hbc]) hab
      simp only [List.length_append, List.length_cons, List.length_nil] at hb1
      exact ⟨by omega, hb2⟩
    · rw [if_neg hfull] at hab ⊢
      refine ⟨?_, ?_⟩ <;> simp [hbc] <;> omega

/-- Row conservation through the whole main loop: when the loop does not
abort, every consumed row is accounted in `loaded`, `errs`, the current
batch buffer, or the retry queue. -/
theorem foldl_addRow_balance (o : Oracle) :
    ∀ (rows : List Row) (s : LB),
      s.batchCount = s.cur.length → s.aborted = false →
      (rows.foldl (addRow o) s).aborted = false →
      (rows.foldl (addRow o) s).loaded + (rows.foldl (addRow o) s).errs +
          (rows.foldl (addRow o) s).cur.length +
          (rows.foldl (addRow o) s).failed.length =
        s.loaded + s.errs + s.cur.length + s.failed.length + rows.length ∧
      (rows.foldl (addRow o) s).batchCount =
        (rows.foldl (addRow o) s).cur.length := by
  intro rows
  induction rows with
  | nil =>
    intro s hbc hs _
    exact ⟨by simp, hbc⟩
  | cons r rs ih =>
    intro s hbc hs hab
    rw [List.foldl_cons] at hab ⊢
    by_cases h1 : (addRow o s r).aborted = true
    · rw [foldl_addRow_of_aborted o rs _ h1, h1] at hab
      cases hab
    · have h1f : (addRow o s r).aborted = false := by
        simpa using h1
      obtain ⟨ha1, ha2⟩ := addRow_balance o s r hbc hs h1f
      obtain ⟨hi1, hi2⟩ := ih (addRow o s r) ha2 h1f hab
      refine ⟨?_, hi2⟩
      simp only [List.length_cons]
      omega

/-- Row conservation through the final partial-batch flush, which never
sets the abort flag (its handler has no pool-shutdown classification). -/
theorem finalFlush_balance (o : Oracle) (s : LB)
    (hbc : s.batchCount = s.cur.length) (hs : s.aborted = false) :
    (finalFlush o s).loaded + (finalFlush o s).errs +
        (finalFlush o s).failed.length =
      s.loaded + s.errs + s.cur.length + s.failed.length ∧
    (finalFlush o s).aborted = false := by
  by_cases hb : 0 < s.batchCount
  · cases h : o s.calls with
    | ok =>
      refine ⟨?_, ?_⟩ <;>
        simp [finalFlush, hs, if_pos hb, h] <;> omega
    | tooLarge =>
      obtain ⟨fs, h1, h2, h3, h4, h5, h6, h7, h8, h9⟩ :=
        runChunks_spec o (chunks10 s.cur) { s with calls := s.calls + 1 }
      rw [chunks10_join] at h3
      simp only [hs] at h1 h3 h4 h8
      refine ⟨?_, ?_⟩ <;>
        simp [finalFlush, hs, if_pos hb, h, h1, h4, h8] <;> omega
    | poolShutdown =>
      refine ⟨?_, ?_⟩ <;>
        simp [finalFlush, hs, if_pos hb, h] <;> omega
    | otherError =>
      refine ⟨?_, ?_⟩ <;>
        simp [finalFlush, hs, if_pos hb, h] <;> omega
  · have hcur : s.cur = [] := List.length_eq_zero.mp (by omega)
    refine ⟨?_, ?_⟩ <;> simp [finalFlush, hs, hb, hcur]

/-- The final flush is skipped entirely on an aborted call. -/
theorem finalFlush_of_aborted (o : Oracle) (s : LB) (h : s.aborted = true) :
    finalFlush o s = s := by
  simp [finalFlush, h]

/-- Accounting of the individual-retry pass: each queued row is replayed
with exactly one statement and ends up in `loaded` or in the
`retry_failed` count; nothing else changes. -/
theorem runRetry_spec (o : Oracle) :
    ∀ (fs : List Row) (s : LB) (rf : Nat),
      (runRetry o fs s rf).1.loaded + (runRetry o fs s rf).2 =
        s.loaded + rf + fs.length ∧
      (runRetry o fs s rf).1.errs = s.errs ∧
      (runRetry o fs s rf).1.aborted = s.aborted ∧
      (runRetry o fs s rf).1.calls = s.calls + fs.length := by
  intro fs
  induction fs with
  | nil =>
    intro s rf
    exact ⟨by simp [runRetry], rfl, rfl, rfl⟩
  | cons f fs ih =>
    intro s rf
    by_cases h : o s.calls = SubmitRes.ok
    · obtain ⟨h1, h2, h3, h4⟩ :=
        ih { s with loaded := s.loaded + 1, calls := s.calls + 1 } rf
      simp only [runRetry, if_pos h]
      refine ⟨?_, h2, h3, ?_⟩
      · simp only at h1
        simp only [List.length_cons]
        omega
      · simp only at h4
        simp only [List.length_cons]
        omega
    · obtain ⟨h1, h2, h3, h4⟩ :=
        ih { s with calls := s.calls + 1 } (rf + 1)
      simp only [runRetry, if_neg h]
      refine ⟨?_, h2, h3, ?_⟩
      · simp only at h1
        simp only [List.length_cons]
        omega
      · simp only at h4
        simp only [List.length_cons]
        omega

/-- Claim C2 as amended: for the Cassandra loader, every call that
reaches the row loop (configured target table, statement prepared) and is
not aborted by the pool-shutdown classification accounts every row —
`attempted = loaded + unclassified-error rows + individual-retry
failures` — but the error counter the loader reports equals the
retry-failure count alone whenever any individual retry fails (the source
overwrites `errors_in_batch` with `retry_failed`); a missing-table or
statement-prepare early return accounts nothing at all, and an aborted
call returns only the loaded count.  For the relational loader, a
successful bulk copy loads every row atomically, and in the row-by-row
fallback each row is either loaded or dropped from the count with no
failure counter kept, so only `loaded + (unreported) dropped rows =
attempted` holds. -/
theorem load_batch_accounting (o : Oracle) (entity : String)
    (rows : List Row) (htable : cassandraTable entity ≠ "")
    (h : (load_batch o true entity rows).aborted = false) :
    (rows.length =
      (load_batch o true entity rows).loaded +
        (load_batch o true entity rows).errsOther +
        (load_batch o true entity rows).retryFailed ∧
    (load_batch o true entity rows).errs =
      (if 0 < (load_batch o true entity rows).retryFailed
       then (load_batch o true entity rows).retryFailed
       else (load_batch o true entity rows).errsOther)) ∧
    (∀ (o₂ : Oracle) (pok : Bool) (e : String) (rs : List Row),
      cassandraTable e = "" → load_batch o₂ pok e rs = ⟨0, 0, 0, 0, false, 0⟩) ∧
    (∀ (o₂ : Oracle) (e : String) (rs : List Row),
      load_batch o₂ false e rs = ⟨0, 0, 0, 0, false, 0⟩) ∧
    (∀ (e : String) (prs : List PgRow), postgresTable e ≠ "" → prs ≠ [] →
      pg_load_batch true e prs = ⟨prs.length, 0, false⟩) ∧
    (∀ (bulkOk : Bool) (e : String) (prs : List PgRow),
      postgresTable e ≠ "" →
        (pg_load_batch bulkOk e prs).loaded +
          (pg_load_batch bulkOk e prs).fallbackFailed = prs.length) := by
  refine ⟨?_, ?_, ?_, ?_, ?_⟩
  · by_cases hrows : rows = []
    · subst hrows
      simp [load_batch]
    · simp only [load_batch, if_neg hrows, if_neg htable, if_true] at h ⊢
      by_cases hs2 :
          (finalFlush o (rows.foldl (addRow o) (initLB entity))).aborted = true
      · simp [hs2] at h
      · rw [if_neg hs2] at h ⊢
        have hs2f :
            (finalFlush o (rows.foldl (addRow o) (initLB entity))).aborted =
              false := by
          simpa using hs2
        have hab1 : (rows.foldl (addRow o) (initLB entity)).aborted = false := by
          by_contra hcon
          have htrue :
              (rows.foldl (addRow o) (initLB entity)).aborted = true := by
            simpa using hcon
          rw [finalFlush_of_aborted o _ htrue] at hs2f
          rw [htrue] at hs2f
          cases hs2f
        obtain ⟨hf1, hf2⟩ :=
          foldl_addRow_balance o rows (initLB entity) rfl rfl hab1
        obtain ⟨hg1, _⟩ := finalFlush_balance o _ hf2 hab1
        obtain ⟨hr1, hr2, _, _⟩ :=
          runRetry_spec o
            (finalFlush o (rows.foldl (addRow o) (initLB entity))).failed
            (finalFlush o (rows.foldl (addRow o) (initLB entity))) 0
        refine ⟨?_, rfl⟩
        have hi1 : (initLB entity).loaded = 0 := rfl
        have hi2 : (initLB entity).errs = 0 := rfl
        have hi3 : (initLB entity).cur.length = 0 := rfl
        have hi4 : (initLB entity).failed.length = 0 := rfl
        rw [hi1, hi2, hi3, hi4] at hf1
        simp only
        omega
  · intro o₂ pok e rs he
    by_cases hrs : rs = [] <;> simp [load_batch, hrs, he]
  · intro o₂ e rs
    by_cases hrs : rs = [] <;> by_cases he : cassandraTable e = "" <;>
      simp [load_batch, hrs, he]
  · intro e prs he hne
    simp [pg_load_batch, hne, he]
  · intro bulkOk e prs he
    by_cases hprs : prs = []
    · simp [pg_load_batch, hprs]
    · cases bulkOk
      · simp only [pg_load_batch, if_neg hprs, if_neg he, Bool.false_eq_true,
          if_false]
        simpa using (List.length_eq_countP_add_countP
          (fun r => r.insertOk = true) prs).symm
      · simp [pg_load_batch, hprs, he]

/-- Session oracle for the counterexample: the first submission (the
final partial batch) is rejected as oversized, every later one (the
micro-batch and the individual retry) fails with an unclassified error. -/
def oracleCE : Oracle := fun n =>
  if n = 0 then SubmitRes.tooLarge else SubmitRes.otherError

/-- Two rows: the first fails at `batch.add` (counted as an error), the
second reaches the batch and ends up failing its individual retry. -/
def rowsCE : List Row := [⟨0, AddRes.otherError⟩, ⟨1, AddRes.ok⟩]

/-- A single row whose `batch.add` hits the pool-shutdown classification. -/
def rowsShut : List Row := [⟨0, AddRes.poolShutdown⟩]

/-- A single relational row whose fallback insert fails. -/
def pgRowsCE : List PgRow := [⟨0, false⟩]

/-- Always-successful session oracle. -/
def oracleOk : Oracle := fun _ => SubmitRes.ok

/-- Counterexample to claim C2 as stated, on both cited loaders: on
`rowsCE` the Cassandra call is not aborted, yet `loaded` plus the
reported error counter is 1, not 2 (the overwrite of `errors_in_batch`
by `retry_failed` drops the add-error row); an aborted call accounts none
of its unprocessed rows; a missing-table call (`province` has no
Cassandra table) and a statement-prepare failure return with zero rows
accounted; and the relational loader's fallback path returns 0 of 1 rows
loaded while keeping no failure counter at all. -/
theorem load_batch_accounting_counterexample :
    rowsCE.length = 2 ∧
    (load_batch oracleCE true "user" rowsCE).aborted = false ∧
    (load_batch oracleCE true "user" rowsCE).loaded +
        (load_batch oracleCE true "user" rowsCE).errs ≠ 2 ∧
    rowsShut.length = 1 ∧
    (load_batch oracleOk true "user" rowsShut).loaded +
        (load_batch oracleOk true "user" rowsShut).errs ≠ 1 ∧
    cassandraTable "province" = "" ∧
    (load_batch oracleOk true "province" rowsCE).loaded +
        (load_batch oracleOk true "province" rowsCE).errs ≠ 2 ∧
    (load_batch oracleOk false "user" rowsCE).loaded +
        (load_batch oracleOk false "user" rowsCE).errs ≠ 2 ∧
    pgRowsCE.length = 1 ∧
    (pg_load_batch false "user" pgRowsCE).usedFallback = true ∧
    (pg_load_batch false "user" pgRowsCE).loaded = 0 := by
  decide

/-- A single well-behaved row, for the witnesses. -/
def rowsOkW : List Row := [⟨0, AddRes.ok⟩]

/-- Witness for `load_batch_accounting` on a one-row successful call. -/
theorem load_batch_accounting_witness :
    (rowsOkW.length =
      (load_batch oracleOk true "user" rowsOkW).loaded +
        (load_batch oracleOk true "user" rowsOkW).errsOther +
        (load_batch oracleOk true "user" rowsOkW).retryFailed ∧
    (load_batch oracleOk true "user" rowsOkW).errs =
      (if 0 < (load_batch oracleOk true "user" rowsOkW).retryFailed
       then (load_batch oracleOk true "user" rowsOkW).retryFailed
       else (load_batch oracleOk true "user" rowsOkW).errsOther)) ∧
    (∀ (o₂ : Oracle) (pok : Bool) (e : String) (rs : List Row),
      cassandraTable e = "" → load_batch o₂ pok e rs = ⟨0, 0, 0, 0, false, 0⟩) ∧
    (∀ (o₂ : Oracle) (e : String) (rs : List Row),
      load_batch o₂ false e rs = ⟨0, 0, 0, 0, false, 0⟩) ∧
    (∀ (e : String) (prs : List PgRow), postgresTable e ≠ "" → prs ≠ [] →
      pg_load_batch true e prs = ⟨prs.length, 0, false⟩) ∧
    (∀ (bulkOk : Bool) (e : String) (prs : List PgRow),
      postgresTable e ≠ "" →
        (pg_load_batch bulkOk e prs).loaded +
          (pg_load_batch bulkOk e prs).fallbackFailed = prs.length) :=
  load_batch_accounting oracleOk "user" rowsOkW (by decide) (by decide)

/-- Claim C3: when a batch submission is classified oversized, the batch
size for subsequent batches is halved with a floor of 50 (only sizes above
the floor shrink), the rows of the failed batch are immediately
re-submitted as micro-batches of size 10 (non-empty chunks of at most 10
whose concatenation is exactly the failed batch), a micro-batch that still
fails is appended whole — never split further — to the individual-retry
queue, failed-batch rows end up either loaded or queued, and after all
batches the queue is replayed one statement per row, each row's outcome
going to `loaded` or to the retry-failure count. -/
theorem oversized_batch_splits (o : Oracle) (s : LB)
    (h : o s.calls = SubmitRes.tooLarge) :
    ((submitFull o s).batchSize =
      if 50 < s.batchSize then max 50 (s.batchSize / 2) else s.batchSize) ∧
    (50 ≤ s.batchSize → 50 ≤ (submitFull o s).batchSize) ∧
    (∃ fs : List Row,
      (submitFull o s).failed = s.failed ++ fs ∧
      List.Sublist fs s.cur ∧
      (submitFull o s).loaded + fs.length = s.loaded + s.cur.length ∧
      (submitFull o s).errs = s.errs) ∧
    (∀ l c : List Row, c ∈ chunks10 l → c ≠ [] ∧ c.length ≤ 10) ∧
    (∀ l : List Row, (chunks10 l).flatten = l) ∧
    (∀ (o₂ : Oracle) (c : List Row) (t : LB), o₂ t.calls ≠ SubmitRes.ok →
      runChunks o₂ [c] t =
        { t with failed := t.failed ++ c, calls := t.calls + 1 }) ∧
    (∀ (fs : List Row) (t : LB),
      (runRetry o fs t 0).1.loaded + (runRetry o fs t 0).2 =
        t.loaded + fs.length ∧
      (runRetry o fs t 0).1.calls = t.calls + fs.length) := by
  obtain ⟨fs, h1, h2, h3, h4, h5, h6, h7, h8, h9⟩ :=
    runChunks_spec o (chunks10 s.cur) { s with calls := s.calls + 1 }
  rw [chunks10_join] at h2 h3
  simp only at h3 h4 h7
  have hsize : (submitFull o s).batchSize =
      if 50 < s.batchSize then max 50 (s.batchSize / 2) else s.batchSize := by
    simp only [submitFull, h]
    split
    case isTrue hc =>
      simp only [h7] at hc ⊢
      rw [if_pos hc]
    case isFalse hc =>
      simp only [h7] at hc ⊢
      rw [if_neg hc]
  refine ⟨hsize, ?_, ?_, ?_, ?_, ?_, ?_⟩
  · intro h50
    rw [hsize]
    split <;> omega
  · refine ⟨fs, ?_, h2, ?_, ?_⟩
    · simp only [submitFull, h]
      split <;> simp [h1]
    · simp only [submitFull, h]
      split <;> · simp only; omega
    · simp only [submitFull, h]
      split <;> simpa using h4
  · exact fun l c hc => chunks10_mem l c hc
  · exact fun l => chunks10_join l
  · intro o₂ c t hne
    simp [runChunks, if_neg hne]
  · intro fsq t
    obtain ⟨hq1, _, _, hq4⟩ := runRetry_spec o fsq t 0
    exact ⟨by omega, hq4⟩

/-- Loader state for the C3 witness: one accumulated row, batch size 500. -/
def stateW : LB :=
  { loaded := 0, errs := 0, batchCount := 1, cur := [⟨0, AddRes.ok⟩],
    batchSize := 500, failed := [], calls := 0, aborted := false }

/-- Witness for `oversized_batch_splits`: an oversized rejection at batch
size 500 halves it to 250. -/
theorem oversized_batch_splits_witness :
    (submitFull oracleCE stateW).batchSize =
      if 50 < stateW.batchSize then max 50 (stateW.batchSize / 2)
      else stateW.batchSize :=
  (oversized_batch_splits oracleCE stateW (by decide)).1

/-- Claim C4: whenever the pool-shutdown classification fires — in the
batch-submission handler or in the per-row add handler — the call aborts
with the counters accumulated so far: the abort flag freezes the whole
remaining main loop and the final flush, and an aborted call performs no
individual retries. -/
theorem pool_shutdown_aborts :
    (∀ (o : Oracle) (s : LB), o s.calls = SubmitRes.poolShutdown →
      (submitFull o s).aborted = true ∧
      (submitFull o s).loaded = s.loaded ∧
      (submitFull o s).errs = s.errs ∧
      (submitFull o s).failed = s.failed) ∧
    (∀ (o : Oracle) (s : LB) (r : Row), s.aborted = false →
      r.addRes = AddRes.poolShutdown →
        addRow o s r = { s with aborted := true }) ∧
    (∀ (o : Oracle) (s : LB) (r : Row), s.aborted = true →
      addRow o s r = s) ∧
    (∀ (o : Oracle) (rows : List Row) (s : LB), s.aborted = true →
      rows.foldl (addRow o) s = s) ∧
    (∀ (o : Oracle) (s : LB), s.aborted = true → finalFlush o s = s) ∧
    (∀ (o : Oracle) (pok : Bool) (entity : String) (rows : List Row),
      (load_batch o pok entity rows).aborted = true →
        (load_batch o pok entity rows).retryFailed = 0) := by
  refine ⟨?_, ?_, ?_, ?_, ?_, ?_⟩
  · intro o s h
    refine ⟨?_, ?_, ?_, ?_⟩ <;> simp [submitFull, h]
  · intro o s r hs hr
    simp [addRow, hs, hr]
  · exact fun o s r h => addRow_of_aborted o s r h
  · exact fun o rows s h => foldl_addRow_of_aborted o rows s h
  · exact fun o s h => finalFlush_of_aborted o s h
  · intro o pok entity rows h
    by_cases hrows : rows = []
    · subst hrows
      simp [load_batch] at h
    · by_cases htab : cassandraTable entity = ""
      · simp [load_batch, hrows, htab] at h
      · cases pok
        · simp [load_batch, hrows, htab] at h
        · simp only [load_batch, if_neg hrows, if_neg htab, if_true] at h ⊢
          by_cases hs2 :
              (finalFlush o
                (rows.foldl (addRow o) (initLB entity))).aborted = true
          · rw [if_pos hs2] at h ⊢
          · rw [if_neg hs2] at h
            simp at h

/-- Witness for `pool_shutdown_aborts`: a shutdown classification on
`stateW` aborts with zero rows loaded. -/
theorem pool_shutdown_aborts_witness :
    (submitFull (fun _ => SubmitRes.poolShutdown) stateW).aborted = true ∧
    (submitFull (fun _ => SubmitRes.poolShutdown) stateW).loaded =
      stateW.loaded ∧
    (submitFull (fun _ => SubmitRes.poolShutdown) stateW).errs =
      stateW.errs ∧
    (submitFull (fun _ => SubmitRes.poolShutdown) stateW).failed =
      stateW.failed :=
  pool_shutdown_aborts.1 (fun _ => SubmitRes.poolShutdown) stateW (by decide)

/-! ## Hierarchical docs lemmas -/

/-- The depths of the load events of phase 1 form a sublist of the depth
levels walked. -/
theorem loadDepths_sublist (assign : String → Int) (folders : List Doc) :
    ∀ (ds : List Nat) (pmap : List (String × Int)),
      List.Sublist (loadDepths (phase1Go assign folders ds pmap).trace) ds := by
  intro ds
  induction ds with
  | nil =>
    intro pmap
    simp [phase1Go, loadDepths]
  | cons d ds ih =>
    intro pmap
    simp only [phase1Go]
    split
    · exact (ih pmap).cons d
    · simp only [loadDepths, List.filterMap_cons]
      exact ((ih _).cons₂ d)

/-- Every phase-1 trace alternates: each level's single load is followed
immediately by that level's single bulk resolve. -/
theorem wellFormed_phase1 (assign : String → Int) (folders : List Doc) :
    ∀ (ds : List Nat) (pmap : List (String × Int)),
      wellFormedTrace (phase1Go assign folders ds pmap).trace = true := by
  intro ds
  induction ds with
  | nil =>
    intro pmap
    rfl
  | cons d ds ih =>
    intro pmap
    simp only [phase1Go]
    split
    · exact ih pmap
    · simp only [wellFormedTrace]
      simp [ih]

/-- Every folder's path depth is bounded by `maxDepth`. -/
theorem pathDepth_le_maxDepth :
    ∀ (folders : List Doc) (f : Doc), f ∈ folders →
      pathDepth f.onFolder ≤ maxDepth folders := by
  intro folders
  induction folders with
  | nil => intro f hf; cases hf
  | cons g gs ih =>
    intro f hf
    rcases List.mem_cons.mp hf with h | h
    · subst h
      simp [maxDepth]
    · have := ih f h
      simp only [maxDepth, List.foldr_cons] at *
      omega

/-- Every accepted folder whose depth is among the walked levels produces
a record in the phase-1 output: no folder is dropped. -/
theorem phase1Go_mem (assign : String → Int) (folders : List Doc) :
    ∀ (ds : List Nat) (pmap : List (String × Int)) (f : Doc),
      f ∈ folders → f.transformOk = true → pathDepth f.onFolder ∈ ds →
      ∃ r ∈ (phase1Go assign folders ds pmap).recs,
        r.mongoId = f.mongoId := by
  intro ds
  induction ds with
  | nil =>
    intro pmap f _ _ hd
    cases hd
  | cons d ds ih =>
    intro pmap f hf hok hd
    simp only [phase1Go]
    rcases List.mem_cons.mp hd with hdep | hdep
    · have hlev : f ∈ levelOf folders d := by
        simp [levelOf, hf, hdep]
      have hmem :
          (⟨f.mongoId, (lookupKey pmap f.onFolder).getD 0⟩ : FolderRec) ∈
            (processFolderLevel assign pmap (levelOf folders d)).1 := by
        simp only [processFolderLevel]
        exact List.mem_map.mpr
          ⟨f, List.mem_filter.mpr ⟨hlev, by simp [hok]⟩, rfl⟩
      split
      case isTrue hempty =>
        rw [hempty] at hmem
        cases hmem
      case isFalse hne =>
        exact ⟨_, List.mem_append_left _ hmem, rfl⟩
    · split
      case isTrue hempty => exact ih pmap f hf hok hdep
      case isFalse hne =>
        obtain ⟨r, hr, hrid⟩ := ih _ f hf hok hdep
        exact ⟨r, List.mem_append_right _ hr, hrid⟩

/-- File phase 2 accounts every file: kept records plus transformer skips
equal the number of input files. -/
theorem phase2_count (pmap : List (String × Int)) :
    ∀ files : List Doc,
      (phase2 pmap files).recs.length + (phase2 pmap files).skipped =
        files.length := by
  intro files
  induction files with
  | nil => rfl
  | cons f fs ih =>
    simp only [phase2]
    by_cases hok : f.transformOk = true
    · rw [if_pos hok]
      cases hlk :
          lookupKey pmap (if f.onFolder = "" then "/" else f.onFolder) <;>
        · simp only [List.length_cons]
          omega
    · rw [if_neg hok]
      simp only [List.length_cons]
      omega

/-- A file whose (normalised) parent path is absent from the path map is
assigned the default root reference 0, flagged in `unmapped_folders`, and
still kept among the records to load. -/
theorem phase2_flagged (pmap : List (String × Int)) :
    ∀ (files : List Doc) (f : Doc), f ∈ files → f.transformOk = true →
      lookupKey pmap (if f.onFolder = "" then "/" else f.onFolder) = none →
      (⟨f.mongoId, 0⟩ : FolderRec) ∈ (phase2 pmap files).recs ∧
      (if f.onFolder = "" then "/" else f.onFolder) ∈
        (phase2 pmap files).unmapped := by
  intro files
  induction files with
  | nil =>
    intro f hf
    cases hf
  | cons g gs ih =>
    intro f hf hok hlk
    rcases List.mem_cons.mp hf with h | h
    · subst h
      simp only [phase2, if_pos hok, hlk]
      exact ⟨List.mem_cons_self _ _, List.mem_cons_self _ _⟩
    · obtain ⟨h1, h2⟩ := ih f h hok hlk
      simp only [phase2]
      by_cases hgok : g.transformOk = true
      · rw [if_pos hgok]
        cases hglk :
            lookupKey pmap (if g.onFolder = "" then "/" else g.onFolder) <;>
          exact ⟨List.mem_cons_of_mem _ h1,
            by first
              | exact h2
              | exact List.mem_cons_of_mem _ h2⟩
      · rw [if_neg hgok]
        exact ⟨h1, h2⟩

/-- A single folder whose parent path `"/Z"` was never seen. -/
def docsFolderCE : List Doc := [⟨true, "/Z", "B", "f1", true⟩]

/-- Counterexample to claim C7 as stated: a folder (phase 1) whose parent
path is absent from the path map is assigned the default root reference 0
and still loaded, but nothing is flagged — the `unmapped_folders` flag set
is populated only for files in phase 2, so the run ends with an
unmapped-parent record and an empty flag set. -/
theorem docs_hierarchical_counterexample :
    (processDocsHierarchical (fun _ => 5) docsFolderCE).folderRecs =
      [⟨"f1", 0⟩] ∧
    lookupKey [("/", (0 : Int))] "/Z" = none ∧
    (processDocsHierarchical (fun _ => 5) docsFolderCE).unmapped = [] := by
  refine ⟨by decide, by decide, by decide⟩

/-- Claim C7 as amended: the hierarchical docs entity is processed in
strictly ascending path-depth order — the phase-1 trace is one
`load_batch` call per non-empty level immediately followed by that level's
single bulk-resolve query, with load depths strictly increasing — no
accepted folder or file is dropped, and a record whose parent path is
absent from the map is assigned the default root reference 0 and still
loaded; however only files are flagged in `unmapped_folders`, folders with
an absent parent are defaulted silently. -/
theorem docs_hierarchical_amended (assign : String → Int) (docs : List Doc) :
    List.Pairwise (· < ·)
      (loadDepths (processDocsHierarchical assign docs).trace) ∧
    wellFormedTrace (processDocsHierarchical assign docs).trace = true ∧
    (∀ f ∈ docs, f.isFolder = true → f.transformOk = true →
      ∃ r ∈ (processDocsHierarchical assign docs).folderRecs,
        r.mongoId = f.mongoId) ∧
    (∀ f ∈ docs, f.isFolder = false → f.transformOk = true →
      lookupKey (processDocsHierarchical assign docs).pmap
          (if f.onFolder = "" then "/" else f.onFolder) = none →
      (⟨f.mongoId, 0⟩ : FolderRec) ∈
          (processDocsHierarchical assign docs).fileRecs ∧
      (if f.onFolder = "" then "/" else f.onFolder) ∈
          (processDocsHierarchical assign docs).unmapped) ∧
    (processDocsHierarchical assign docs).fileRecs.length +
        (processDocsHierarchical assign docs).skippedFiles =
      (docs.filter (fun d => ¬d.isFolder)).length := by
  refine ⟨?_, ?_, ?_, ?_, ?_⟩
  · exact (List.pairwise_lt_range _).sublist
      (loadDepths_sublist assign (docs.filter (fun d => d.isFolder)) _ _)
  · exact wellFormed_phase1 assign (docs.filter (fun d => d.isFolder)) _ _
  · intro f hf hfold hok
    have hmem : f ∈ docs.filter (fun d => d.isFolder) :=
      List.mem_filter.mpr ⟨hf, by simp [hfold]⟩
    have hdep : pathDepth f.onFolder ∈
        List.range (maxDepth (docs.filter (fun d => d.isFolder)) + 1) := by
      have := pathDepth_le_maxDepth (docs.filter (fun d => d.isFolder)) f hmem
      exact List.mem_range.mpr (by omega)
    exact phase1Go_mem assign (docs.filter (fun d => d.isFolder)) _ _ f hmem
      hok hdep
  · intro f hf hfile hok hlk
    have hmem : f ∈ docs.filter (fun d => ¬d.isFolder) :=
      List.mem_filter.mpr ⟨hf, by simp [hfile]⟩
    exact phase2_flagged _ _ f hmem hok hlk
  · exact phase2_count _ _

/-- Concrete docs tree for the C7 witness: root-level folder `/A`, its
child `/A/B`, and a file in an unseen folder `/Z`. -/
def docsW : List Doc :=
  [⟨true, "/", "A", "fA", true⟩, ⟨true, "/A", "B", "fB", true⟩,
   ⟨false, "/Z", "x", "d1", true⟩]

/-- Witness for `docs_hierarchical_amended` on `docsW`: the unseen-parent
file is defaulted to root, flagged, and still loaded. -/
theorem docs_hierarchical_amended_witness :
    (⟨"d1", 0⟩ : FolderRec) ∈
        (processDocsHierarchical (fun _ => 5) docsW).fileRecs ∧
    (if ("/Z" : String) = "" then "/" else "/Z") ∈
        (processDocsHierarchical (fun _ => 5) docsW).unmapped :=
  (docs_hierarchical_amended (fun _ => 5) docsW).2.2.2.1
    ⟨false, "/Z", "x", "d1", true⟩ (by decide) (by decide) (by decide)
    (by decide)

end MongoETL
